import Mathlib

/-!
Shallow embedding of src/src/boid.py (class Boid) for verification.

Conventions of the embedding:
- numpy 2-vectors become pairs of rationals (Vec2); the floating-point
  normalisation step, which takes a square root, is modelled over the reals.
- The mesa space object (self.model.space) is an external collaborator; it is
  modelled as a structure of abstract functions (Space).
- The shared random source (self.random.random()) is modelled as a stream
  rng : Nat -> Rat together with an index; each draw reads rng k and moves the
  index to k+1.
- The Python attribute self.state is created only by assignment inside
  infection_recover and never exists at construction; it is modelled as an
  Option String that the constructor sets to none.
- Health states are the literal strings used by the code.
-/

namespace BoidsModel

/-- Two dimensional vector of rationals, standing for a numpy array of length 2. -/
abbrev Vec2 := ℚ × ℚ

/-- Agent record, one field per attribute set in Boid.__init__ of
src/src/boid.py (lines 44-56) plus the shadow attribute state written by
infection_recover. -/
structure Boid where
  unique_id : ℕ
  pos : Vec2
  speed : ℚ
  velocity : Vec2
  vision : ℚ
  separation : ℚ
  cohere_factor : ℚ
  separate_factor : ℚ
  match_factor : ℚ
  status : String
  state : Option String
  infection_time : ℤ
  motality : ℚ
  infection_rate : ℚ
deriving DecidableEq, Repr

/-- The continuous space of the model (self.model.space), an external
collaborator: distance, heading and neighbor queries are abstract. -/
structure Space where
  getDistance : Vec2 → Vec2 → ℚ
  getHeading : Vec2 → Vec2 → Vec2
  getNeighbors : Vec2 → ℚ → Bool → List Boid

/-- Constructor Boid.__init__ (src/src/boid.py lines 20-56): records the
passed kinematic fields and weights, sets status from initial_status, and
hard-codes infection_time = 0, motality = 0.1, infection_rate = 0.5.  The
infection_time argument is accepted (line 21) but never read. -/
def Boid.init (unique_id : ℕ) (pos : Vec2) (speed : ℚ) (velocity : Vec2)
    (vision : ℚ) (separation0 : ℚ) (initial_status : String)
    (infection_time0 : ℤ) (cohere0 : ℚ) (separate0 : ℚ) (match0 : ℚ) : Boid :=
  { unique_id := unique_id
    pos := pos
    speed := speed
    velocity := velocity
    vision := vision
    separation := separation0
    cohere_factor := cohere0
    separate_factor := separate0
    match_factor := match0
    status := initial_status
    state := none
    infection_time := 0
    motality := 1/10
    infection_rate := 1/2 }

/-- Boid.cohere (src/src/boid.py lines 58-67): sum of heading vectors to the
neighbors, divided by their number when the list is non-empty; the zero
vector otherwise. -/
def Boid.cohere (sp : Space) (b : Boid) (neighbors : List Boid) : Vec2 :=
  if neighbors = [] then 0
  else (neighbors.length : ℚ)⁻¹ •
    neighbors.foldl (fun acc n => acc + sp.getHeading b.pos n.pos) 0

/-- Boid.separate (src/src/boid.py lines 69-79): starting from the zero
vector, subtract the heading to every neighbor strictly closer than the
separation distance. -/
def Boid.separate (sp : Space) (b : Boid) (neighbors : List Boid) : Vec2 :=
  neighbors.foldl
    (fun acc n =>
      if sp.getDistance b.pos n.pos < b.separation
      then acc - sp.getHeading b.pos n.pos else acc) 0

/-- Boid.match_heading (src/src/boid.py lines 81-90): sum of the neighbors
velocities, divided by their number when the list is non-empty; the zero
vector otherwise. -/
def Boid.match_heading (b : Boid) (neighbors : List Boid) : Vec2 :=
  if neighbors = [] then 0
  else (neighbors.length : ℚ)⁻¹ •
    neighbors.foldl (fun acc n => acc + n.velocity) 0

/-- The for-loop of the Susceptible branch of infection_recover
(src/src/boid.py lines 113-116): for each neighbor whose status is the
string infected, draw one sample; if it is below self.infection_rate,
assign the string infected to the shadow attribute self.state.  The boid is
threaded through because each iteration reads self.infection_rate from it. -/
def infectLoop (rng : ℕ → ℚ) : List Boid → Boid × ℕ → Boid × ℕ
  | [], bk => bk
  | n :: ns, (b, k) =>
    if n.status = "infected" then
      if rng k < b.infection_rate then
        infectLoop rng ns ({ b with state := some "infected" }, k + 1)
      else
        infectLoop rng ns (b, k + 1)
    else
      infectLoop rng ns (b, k)

/-- First block of infection_recover (src/src/boid.py lines 111-116): the
loop runs only when the neighbor list is non-empty and self.status is the
string susceptible. -/
def susceptibleStep (rng : ℕ → ℚ) (b : Boid) (neighbors : List Boid)
    (k : ℕ) : Boid × ℕ :=
  if neighbors = [] then (b, k)
  else if b.status = "susceptible" then infectLoop rng neighbors (b, k)
  else (b, k)

/-- Second block of infection_recover (src/src/boid.py lines 117-123): when
self.status is the string infected, if infection_time exceeds 10 draw one
sample and assign removed or recovered to the shadow attribute self.state;
in every case of this block increment infection_time by one. -/
def infectedStep (rng : ℕ → ℚ) (b : Boid) (k : ℕ) : Boid × ℕ :=
  if b.status = "infected" then
    if 10 < b.infection_time then
      if rng k < b.motality then
        ({ b with state := some "removed",
                  infection_time := b.infection_time + 1 }, k + 1)
      else
        ({ b with state := some "recovered",
                  infection_time := b.infection_time + 1 }, k + 1)
    else
      ({ b with infection_time := b.infection_time + 1 }, k)
  else (b, k)

/-- Boid.infection_recover (src/src/boid.py lines 106-123): the Susceptible
block followed by the Infected block, threading the boid and the random
index. -/
def Boid.infection_recover (b : Boid) (neighbors : List Boid)
    (rng : ℕ → ℚ) (k : ℕ) : Boid × ℕ :=
  infectedStep rng (susceptibleStep rng b neighbors k).1
    (susceptibleStep rng b neighbors k).2

/-- Iterating the infection transition over a sequence of ticks, each tick
with its own neighbor list, threading the random index. -/
def runTicks (rng : ℕ → ℚ) : Boid → List (List Boid) → ℕ → Boid × ℕ
  | b, [], k => (b, k)
  | b, ns :: rest, k =>
    runTicks rng (b.infection_recover ns rng k).1 rest
      (b.infection_recover ns rng k).2

/-- The neighbor query of Boid.step (src/src/boid.py line 97). -/
def stepNeighbors (sp : Space) (b : Boid) : List Boid :=
  sp.getNeighbors b.pos b.vision false

/-- The pre-normalisation combined velocity of Boid.step (src/src/boid.py
lines 98-100): old velocity plus half of the weighted sum of the three
steering vectors. -/
def combinedVelocity (sp : Space) (b : Boid) : Vec2 :=
  b.velocity + (2 : ℚ)⁻¹ •
    (b.cohere_factor • Boid.cohere sp b (stepNeighbors sp b)
      + b.separate_factor • Boid.separate sp b (stepNeighbors sp b)
      + b.match_factor • Boid.match_heading b (stepNeighbors sp b))

/-- Euclidean norm of a rational vector, as a real (np.linalg.norm). -/
noncomputable def rnorm (v : Vec2) : ℝ :=
  Real.sqrt (((v.1 : ℝ)) ^ 2 + ((v.2 : ℝ)) ^ 2)

/-- Componentwise division of a rational vector by its Euclidean norm
(src/src/boid.py line 101, self.velocity /= np.linalg.norm(self.velocity));
the result lives over the reals. -/
noncomputable def normalizedVelocity (v : Vec2) : ℝ × ℝ :=
  ((v.1 : ℝ) / rnorm v, (v.2 : ℝ) / rnorm v)

/-- The velocity held by the agent after line 101 of Boid.step. -/
noncomputable def stepVelocity (sp : Space) (b : Boid) : ℝ × ℝ :=
  normalizedVelocity (combinedVelocity sp b)

/-- Euclidean norm of a real vector. -/
noncomputable def rnormR (w : ℝ × ℝ) : ℝ :=
  Real.sqrt (w.1 ^ 2 + w.2 ^ 2)

/-- The position Boid.step hands to space.move_agent (src/src/boid.py lines
102-104): old position plus normalised velocity times speed; wrapping or
clamping is the responsibility of the external space. -/
noncomputable def stepNewPos (sp : Space) (b : Boid) : ℝ × ℝ :=
  ((b.pos.1 : ℝ) + (stepVelocity sp b).1 * (b.speed : ℝ),
   (b.pos.2 : ℝ) + (stepVelocity sp b).2 * (b.speed : ℝ))

/-- The infection transition as invoked from Boid.step (src/src/boid.py line
103), with the same neighbor list as the motion update. -/
def stepInfection (sp : Space) (b : Boid) (rng : ℕ → ℚ) (k : ℕ) : Boid × ℕ :=
  b.infection_recover (stepNeighbors sp b) rng k

/-- Spec side definition, from the words of the spec: cohesion is the
arithmetic mean of the heading vectors to the neighbors, the zero vector
when there are none. -/
def cohesionSpec (sp : Space) (b : Boid) (neighbors : List Boid) : Vec2 :=
  if neighbors = [] then 0
  else (neighbors.length : ℚ)⁻¹ •
    (neighbors.map (fun n => sp.getHeading b.pos n.pos)).sum

/-- Spec side definition, from the words of the spec: separation is the
negative sum of the heading vectors to exactly the neighbors strictly closer
than the separation distance. -/
def separationSpec (sp : Space) (b : Boid) (neighbors : List Boid) : Vec2 :=
  - ((neighbors.filter
        (fun n => decide (sp.getDistance b.pos n.pos < b.separation))).map
      (fun n => sp.getHeading b.pos n.pos)).sum

/-- Spec side definition, from the words of the spec: alignment is the
arithmetic mean of the neighbors velocity vectors, the zero vector when
there are none. -/
def alignmentSpec (neighbors : List Boid) : Vec2 :=
  if neighbors = [] then 0
  else (neighbors.length : ℚ)⁻¹ • (neighbors.map (fun n => n.velocity)).sum

/-- Spec side definition, from the words of the spec: the combined steering
delta is (cohesion * cohere weight + separation * separate weight +
alignment * match weight) / 2. -/
def deltaSpec (sp : Space) (b : Boid) (neighbors : List Boid) : Vec2 :=
  (2 : ℚ)⁻¹ •
    (b.cohere_factor • cohesionSpec sp b neighbors
      + b.separate_factor • separationSpec sp b neighbors
      + b.match_factor • alignmentSpec neighbors)

/-- A concrete susceptible agent with the default weights of the repository,
used as a base for concrete scenarios. -/
def baseBoid : Boid :=
  { unique_id := 0
    pos := (0, 0)
    speed := 1
    velocity := (1, 0)
    vision := 1
    separation := 1
    cohere_factor := 1/40
    separate_factor := 1/4
    match_factor := 1/25
    status := "susceptible"
    state := none
    infection_time := 0
    motality := 1/10
    infection_rate := 1/2 }

/-- A concrete infected neighbor. -/
def nbInf : Boid := { baseBoid with unique_id := 1, status := "infected" }

/-- A space whose neighbor query always answers the empty list. -/
def emptySpace : Space :=
  { getDistance := fun _ _ => 0
    getHeading := fun _ _ => 0
    getNeighbors := fun _ _ _ => [] }

/-- A random stream that always draws 0. -/
def rngZero : ℕ → ℚ := fun _ => 0

/-- A random stream that always draws 1. -/
def rngOne : ℕ → ℚ := fun _ => 1

/-- Concrete susceptible agent with infection probability 1, for the
infection scenario of the spec. -/
def bC1 : Boid := { baseBoid with infection_rate := 1 }

/-- Concrete infected agent with duration 11 and mortality probability 0. -/
def bC3w : Boid :=
  { baseBoid with status := "infected", infection_time := 11, motality := 0 }

/-- Concrete recovered agent. -/
def bC6w : Boid := { baseBoid with status := "recovered" }

/-- Concrete susceptible agent with infection probability 1, for the
same-tick no-resolution scenario. -/
def bC7w : Boid := { baseBoid with infection_rate := 1, infection_time := 20 }

/-- Concrete agent whose combined pre-normalisation velocity cancels to the
zero vector: prior velocity (1, 0), cohere weight 2, other weights 0. -/
def bC4 : Boid :=
  { baseBoid with cohere_factor := 2, separate_factor := 0, match_factor := 0 }

/-- A space that reports one neighbor with heading (-1, 0) at distance 5. -/
def spC4 : Space :=
  { getDistance := fun _ _ => 5
    getHeading := fun _ _ => (-1, 0)
    getNeighbors := fun _ _ _ => [baseBoid] }

/-- A concrete neighbor for the motion witness scenario. -/
def nbC5 : Boid := { baseBoid with unique_id := 2, pos := (2, 0), velocity := (0, 1) }

/-- A space with Euclidean style heading and one neighbor at distance 5. -/
def spC5 : Space :=
  { getDistance := fun _ _ => 5
    getHeading := fun p q => q - p
    getNeighbors := fun _ _ _ => [nbC5] }

/-- Folding vector addition over a list equals the initial accumulator plus
the sum of the mapped list. -/
theorem foldl_add_eq_sum {α : Type} (f : α → Vec2) :
    ∀ (l : List α) (a : Vec2),
      l.foldl (fun acc x => acc + f x) a = a + (l.map f).sum
  | [], a => by simp
  | x :: xs, a => by
    simp only [List.foldl_cons, List.map_cons, List.sum_cons]
    rw [foldl_add_eq_sum f xs]
    rw [add_assoc]

/-- Folding guarded vector subtraction over a list equals the initial
accumulator minus the sum of the mapped filtered list. -/
theorem foldl_sub_filter {α : Type} (f : α → Vec2) (p : α → Prop)
    [DecidablePred p] :
    ∀ (l : List α) (a : Vec2),
      l.foldl (fun acc x => if p x then acc - f x else acc) a
        = a - ((l.filter (fun x => decide (p x))).map f).sum
  | [], a => by simp
  | x :: xs, a => by
    by_cases h : p x
    · rw [List.foldl_cons, if_pos h, foldl_sub_filter f p xs]
      have hf : List.filter (fun y => decide (p y)) (x :: xs)
          = x :: List.filter (fun y => decide (p y)) xs := by
        simp [List.filter_cons, h]
      rw [hf, List.map_cons, List.sum_cons, sub_sub]
    · rw [List.foldl_cons, if_neg h, foldl_sub_filter f p xs]
      have hf : List.filter (fun y => decide (p y)) (x :: xs)
          = List.filter (fun y => decide (p y)) xs := by
        simp [List.filter_cons, h]
      rw [hf]

/-- The cohere loop of the source computes the arithmetic mean of the
heading vectors. -/
theorem cohere_eq_spec (sp : Space) (b : Boid) (ns : List Boid) :
    Boid.cohere sp b ns = cohesionSpec sp b ns := by
  unfold Boid.cohere cohesionSpec
  rw [foldl_add_eq_sum (fun n => sp.getHeading b.pos n.pos) ns 0, zero_add]

/-- The separate loop of the source computes the negative sum of the heading
vectors to the neighbors strictly inside the separation distance. -/
theorem separate_eq_spec (sp : Space) (b : Boid) (ns : List Boid) :
    Boid.separate sp b ns = separationSpec sp b ns := by
  unfold Boid.separate separationSpec
  rw [foldl_sub_filter (fun n => sp.getHeading b.pos n.pos)
    (fun n => sp.getDistance b.pos n.pos < b.separation) ns 0, zero_sub]

/-- The match_heading loop of the source computes the arithmetic mean of the
neighbor velocities. -/
theorem match_heading_eq_spec (b : Boid) (ns : List Boid) :
    Boid.match_heading b ns = alignmentSpec ns := by
  unfold Boid.match_heading alignmentSpec
  rw [foldl_add_eq_sum (fun n : Boid => n.velocity) ns 0, zero_add]

/-- The susceptible loop only ever writes the shadow state field: the result
is the input boid with state possibly set to infected, every other field
untouched. -/
theorem infectLoop_shape (rng : ℕ → ℚ) :
    ∀ (ns : List Boid) (b : Boid) (k : ℕ),
      ∃ s k2, infectLoop rng ns (b, k) = ({ b with state := s }, k2)
        ∧ (s = b.state ∨ s = some "infected")
  | [], b, k => ⟨b.state, k, rfl, Or.inl rfl⟩
  | n :: ns, b, k => by
    unfold infectLoop
    by_cases hn : n.status = "infected"
    · by_cases hr : rng k < b.infection_rate
      · simp only [hn, if_pos, hr, if_true]
        obtain ⟨s, k2, he, hs⟩ :=
          infectLoop_shape rng ns { b with state := some "infected" } (k + 1)
        refine ⟨s, k2, he, Or.inr ?_⟩
        rcases hs with h | h
        · exact h
        · exact h
      · simp only [hn, if_pos, hr, if_false]
        exact infectLoop_shape rng ns b (k + 1)
    · simp only [hn, if_neg, if_false]
      exact infectLoop_shape rng ns b k

/-- The whole susceptible block only ever writes the shadow state field. -/
theorem susceptibleStep_shape (rng : ℕ → ℚ) (b : Boid) (ns : List Boid)
    (k : ℕ) :
    ∃ s k2, susceptibleStep rng b ns k = ({ b with state := s }, k2)
      ∧ (s = b.state ∨ s = some "infected") := by
  unfold susceptibleStep
  by_cases h1 : ns = []
  · exact ⟨b.state, k, by rw [if_pos h1], Or.inl rfl⟩
  · by_cases h2 : b.status = "susceptible"
    · rw [if_neg h1, if_pos h2]
      exact infectLoop_shape rng ns b k
    · exact ⟨b.state, k, by rw [if_neg h1, if_neg h2], Or.inl rfl⟩

/-- A tick of the infection transition leaves an agent in a terminal status
entirely unchanged. -/
theorem infection_recover_terminal (b : Boid) (ns : List Boid)
    (rng : ℕ → ℚ) (k : ℕ)
    (h : b.status = "recovered" ∨ b.status = "removed") :
    b.infection_recover ns rng k = (b, k) := by
  have hsus : susceptibleStep rng b ns k = (b, k) := by
    unfold susceptibleStep
    by_cases h1 : ns = []
    · rw [if_pos h1]
    · rw [if_neg h1, if_neg (by rcases h with h | h <;> simp [h])]
  unfold Boid.infection_recover
  rw [hsus]
  unfold infectedStep
  rw [if_neg (by rcases h with h | h <;> simp [h])]

/-- A rational vector different from the origin has a nonzero real
component. -/
theorem vec_cast_ne_zero {v : Vec2} (h : v ≠ (0, 0)) :
    ((v.1 : ℝ)) ≠ 0 ∨ ((v.2 : ℝ)) ≠ 0 := by
  by_contra hc
  push_neg at hc
  obtain ⟨h1, h2⟩ := hc
  apply h
  have e1 : v.1 = 0 := by exact_mod_cast h1
  have e2 : v.2 = 0 := by exact_mod_cast h2
  exact Prod.ext_iff.mpr ⟨e1, e2⟩

/-- Normalising a nonzero vector yields a vector of Euclidean norm one. -/
theorem rnormR_normalizedVelocity {v : Vec2} (h : v ≠ (0, 0)) :
    rnormR (normalizedVelocity v) = 1 := by
  have hq : (0 : ℝ) < (v.1 : ℝ) ^ 2 + (v.2 : ℝ) ^ 2 := by
    rcases vec_cast_ne_zero h with h1 | h2
    · have h2n := sq_nonneg ((v.2 : ℝ))
      have h1p : (0 : ℝ) < (v.1 : ℝ) ^ 2 := pow_two_pos_of_ne_zero h1
      linarith
    · have h1n := sq_nonneg ((v.1 : ℝ))
      have h2p : (0 : ℝ) < (v.2 : ℝ) ^ 2 := pow_two_pos_of_ne_zero h2
      linarith
  have hs2 : (rnorm v) ^ 2 = (v.1 : ℝ) ^ 2 + (v.2 : ℝ) ^ 2 :=
    Real.sq_sqrt hq.le
  unfold rnormR normalizedVelocity
  rw [div_pow, div_pow, div_add_div_same, hs2, div_self (ne_of_gt hq),
    Real.sqrt_one]

/-- Claim C1: a Susceptible agent with one Infected neighbor and infection
probability 1 should be Infected after the tick; the code instead writes the
shadow attribute state and leaves the status attribute, the one read by
other agents and by the resolution branch, at susceptible.  Evaluation of
the transition at the failing input: sample 0 is below the infection
probability 1, yet status is still susceptible afterwards. -/
theorem infection_write_misses_status :
    (rngZero 0 < bC1.infection_rate)
    ∧ (nbInf.status = "infected")
    ∧ (bC1.status = "susceptible")
    ∧ ((bC1.infection_recover [nbInf] rngZero 0).1.status = "susceptible")
    ∧ ((bC1.infection_recover [nbInf] rngZero 0).1.status ≠ "infected")
    ∧ ((bC1.infection_recover [nbInf] rngZero 0).1.state = some "infected")
    ∧ ((bC1.infection_recover [nbInf] rngZero 0).1.infection_time = 0) := by
  decide

/-- Claim C2: for every agent, neighbor set and random stream, the infection
transition writes only the shadow attribute state; the status attribute it
and other agents read is unchanged, as are position and velocity. -/
theorem infection_recover_preserves_status (b : Boid) (ns : List Boid)
    (rng : ℕ → ℚ) (k : ℕ) :
    ((b.infection_recover ns rng k).1.status = b.status)
    ∧ ((b.infection_recover ns rng k).1.pos = b.pos)
    ∧ ((b.infection_recover ns rng k).1.velocity = b.velocity) := by
  unfold Boid.infection_recover
  obtain ⟨s, k2, he, _⟩ := susceptibleStep_shape rng b ns k
  rw [he]
  unfold infectedStep
  split_ifs <;> simp

/-- Claim C3: an agent whose status is infected at the start of the tick has
its duration counter incremented by exactly one; when the counter on entry
exceeds 10 one sample is drawn and the shadow state becomes removed when the
sample is below the mortality probability, recovered otherwise; below the
threshold no sample is drawn, the shadow state is untouched and the status
stays infected. -/
theorem infected_transition (b : Boid) (ns : List Boid) (rng : ℕ → ℚ)
    (k : ℕ) (h : b.status = "infected") :
    ((b.infection_recover ns rng k).1.infection_time = b.infection_time + 1)
    ∧ ((b.infection_recover ns rng k).1.status = "infected")
    ∧ (10 < b.infection_time →
        ((b.infection_recover ns rng k).1.state
          = some (if rng k < b.motality then "removed" else "recovered"))
        ∧ ((b.infection_recover ns rng k).2 = k + 1))
    ∧ (¬ 10 < b.infection_time →
        ((b.infection_recover ns rng k).1.state = b.state)
        ∧ ((b.infection_recover ns rng k).2 = k)) := by
  have hsus : susceptibleStep rng b ns k = (b, k) := by
    unfold susceptibleStep
    by_cases h1 : ns = []
    · rw [if_pos h1]
    · rw [if_neg h1, if_neg (by simp [h])]
  unfold Boid.infection_recover
  rw [hsus]
  unfold infectedStep
  by_cases ht : 10 < b.infection_time
  · by_cases hr : rng k < b.motality
    · simp [h, ht, hr]
    · simp [h, ht, hr]
  · simp [h, ht]

/-- Witness for claim C3: an infected agent with duration 11 and mortality
probability 0, drawing the sample 1, becomes recovered with duration 12. -/
theorem infected_transition_witness :
    bC3w.status = "infected"
    ∧ (((bC3w.infection_recover [] rngOne 0).1.infection_time
          = bC3w.infection_time + 1)
      ∧ ((bC3w.infection_recover [] rngOne 0).1.status = "infected")
      ∧ (10 < bC3w.infection_time →
          ((bC3w.infection_recover [] rngOne 0).1.state
            = some (if rngOne 0 < bC3w.motality then "removed"
                    else "recovered"))
          ∧ ((bC3w.infection_recover [] rngOne 0).2 = 0 + 1))
      ∧ (¬ 10 < bC3w.infection_time →
          ((bC3w.infection_recover [] rngOne 0).1.state = bC3w.state)
          ∧ ((bC3w.infection_recover [] rngOne 0).2 = 0))) :=
  ⟨rfl, infected_transition bC3w [] rngOne 0 rfl⟩

/-- Claim C6: an agent whose status is recovered or removed is left entirely
unchanged by any further sequence of infection ticks, whatever the neighbor
lists and random samples. -/
theorem terminal_states_immutable (b : Boid) (nss : List (List Boid))
    (rng : ℕ → ℚ) (k : ℕ)
    (h : b.status = "recovered" ∨ b.status = "removed") :
    runTicks rng b nss k = (b, k) := by
  induction nss with
  | nil => rfl
  | cons ns rest ih =>
    unfold runTicks
    rw [infection_recover_terminal b ns rng k h]
    exact ih

/-- Witness for claim C6: a recovered agent stays itself over two ticks, one
of them with an infected neighbor. -/
theorem terminal_states_immutable_witness :
    (bC6w.status = "recovered" ∨ bC6w.status = "removed")
    ∧ runTicks rngZero bC6w [[nbInf], []] 0 = (bC6w, 0) :=
  ⟨Or.inl rfl, terminal_states_immutable bC6w [[nbInf], []] rngZero 0
    (Or.inl rfl)⟩

/-- Claim C7: an agent that is susceptible at the start of the tick is never
double processed that tick: its duration counter is untouched, its status
stays susceptible, and the shadow state is either untouched or set to
infected, never to removed or recovered. -/
theorem susceptible_no_resolution (b : Boid) (ns : List Boid) (rng : ℕ → ℚ)
    (k : ℕ) (h : b.status = "susceptible") :
    ((b.infection_recover ns rng k).1.infection_time = b.infection_time)
    ∧ ((b.infection_recover ns rng k).1.status = "susceptible")
    ∧ (((b.infection_recover ns rng k).1.state = b.state)
        ∨ ((b.infection_recover ns rng k).1.state = some "infected")) := by
  unfold Boid.infection_recover
  obtain ⟨s, k2, he, hs⟩ := susceptibleStep_shape rng b ns k
  rw [he]
  unfold infectedStep
  rw [if_neg (by simp [h])]
  refine ⟨by simp, by simp [h], ?_⟩
  rcases hs with h1 | h1
  · left
    simpa using h1
  · right
    simpa using h1

/-- Witness for claim C7: a susceptible agent with infection probability 1,
duration 20 and an infected neighbor, drawing the sample 0, is not resolved
and not aged this tick even though it catches the infection. -/
theorem susceptible_no_resolution_witness :
    bC7w.status = "susceptible"
    ∧ (((bC7w.infection_recover [nbInf] rngZero 0).1.infection_time
          = bC7w.infection_time)
      ∧ ((bC7w.infection_recover [nbInf] rngZero 0).1.status = "susceptible")
      ∧ (((bC7w.infection_recover [nbInf] rngZero 0).1.state = bC7w.state)
          ∨ ((bC7w.infection_recover [nbInf] rngZero 0).1.state
              = some "infected"))) :=
  ⟨rfl, susceptible_no_resolution bC7w [nbInf] rngZero 0 rfl⟩

/-- Claim C8: the separate loop of the source equals the spec description,
the negative sum of the heading vectors to exactly the neighbors strictly
closer than the separation distance, and the empty neighbor list yields the
zero vector. -/
theorem separation_matches_spec (sp : Space) (b : Boid) (ns : List Boid) :
    (Boid.separate sp b ns = separationSpec sp b ns)
    ∧ (Boid.separate sp b [] = (0 : Vec2)) :=
  ⟨separate_eq_spec sp b ns, by simp [Boid.separate]⟩

/-- Claim C9: the cohere loop of the source equals the arithmetic mean of
the heading vectors, the match_heading loop equals the arithmetic mean of
the neighbor velocities, and both yield the zero vector on the empty
neighbor list. -/
theorem steering_means_match_spec (sp : Space) (b : Boid) (ns : List Boid) :
    (Boid.cohere sp b ns = cohesionSpec sp b ns)
    ∧ (Boid.match_heading b ns = alignmentSpec ns)
    ∧ (Boid.cohere sp b [] = (0 : Vec2))
    ∧ (Boid.match_heading b [] = (0 : Vec2)) :=
  ⟨cohere_eq_spec sp b ns, match_heading_eq_spec b ns,
    by simp [Boid.cohere], by simp [Boid.match_heading]⟩

/-- Claim C10: whatever arguments the constructor receives, it fixes the
infection probability to one half and the mortality probability to one
tenth, and starts the duration counter at 0, ignoring the infection_time
argument entirely. -/
theorem init_hardcodes_infection_params (uid : ℕ) (pos : Vec2) (speed : ℚ)
    (vel : Vec2) (vis sep : ℚ) (st : String) (t : ℤ) (c s m : ℚ) :
    ((Boid.init uid pos speed vel vis sep st t c s m).infection_rate = 1/2)
    ∧ ((Boid.init uid pos speed vel vis sep st t c s m).motality = 1/10)
    ∧ ((Boid.init uid pos speed vel vis sep st t c s m).infection_time = 0)
    ∧ (∀ t2 : ℤ, Boid.init uid pos speed vel vis sep st t c s m
        = Boid.init uid pos speed vel vis sep st t2 c s m) :=
  ⟨rfl, rfl, rfl, fun _ => rfl⟩

/-- Claim C4, counterexample: with prior velocity (1, 0), cohere weight 2
and a neighbor at heading (-1, 0), the combined pre-normalisation velocity
is the zero vector; the update divides by its zero norm anyway, so the
velocity after the update is the zero vector and the prior velocity is not
retained: the degenerate case is not guarded. -/
theorem step_zero_combined_unguarded :
    (bC4.velocity ≠ ((0 : ℚ), (0 : ℚ)))
    ∧ (combinedVelocity spC4 bC4 = ((0 : ℚ), (0 : ℚ)))
    ∧ (stepVelocity spC4 bC4 = ((0 : ℝ), (0 : ℝ)))
    ∧ (stepVelocity spC4 bC4
        ≠ ((bC4.velocity.1 : ℝ), (bC4.velocity.2 : ℝ))) := by
  have hc : combinedVelocity spC4 bC4 = ((0 : ℚ), (0 : ℚ)) := by
    norm_num [combinedVelocity, stepNeighbors, spC4, bC4, baseBoid,
      Boid.cohere, Boid.separate, Boid.match_heading]
  have hv : stepVelocity spC4 bC4 = ((0 : ℝ), (0 : ℝ)) := by
    rw [show stepVelocity spC4 bC4
        = normalizedVelocity (combinedVelocity spC4 bC4) from rfl, hc]
    unfold normalizedVelocity
    norm_num
  refine ⟨by decide, hc, hv, ?_⟩
  rw [hv]
  simp only [bC4, baseBoid, ne_eq, Prod.mk.injEq, not_and]
  intro h0
  norm_num at h0

/-- Claim C4, amended: whenever the pre-normalisation combined velocity is
nonzero, the velocity after the update is nonzero. -/
theorem step_velocity_nonzero (sp : Space) (b : Boid)
    (h : combinedVelocity sp b ≠ (0, 0)) :
    stepVelocity sp b ≠ ((0 : ℝ), (0 : ℝ)) := by
  intro hz
  have h1 := rnormR_normalizedVelocity h
  have h2 : rnormR ((0 : ℝ), (0 : ℝ)) = 1 := by
    rw [← hz]
    exact h1
  unfold rnormR at h2
  rw [show ((0 : ℝ), (0 : ℝ)).1 = (0 : ℝ) from rfl,
    show ((0 : ℝ), (0 : ℝ)).2 = (0 : ℝ) from rfl] at h2
  norm_num [Real.sqrt_zero] at h2

/-- Witness for claim C4: an agent with velocity (1, 0) and no neighbors has
nonzero combined velocity and nonzero post-update velocity. -/
theorem step_velocity_nonzero_witness :
    (combinedVelocity emptySpace baseBoid ≠ (0, 0))
    ∧ (stepVelocity emptySpace baseBoid ≠ ((0 : ℝ), (0 : ℝ))) :=
  ⟨by norm_num [combinedVelocity, stepNeighbors, emptySpace, baseBoid,
      Boid.cohere, Boid.separate, Boid.match_heading],
   step_velocity_nonzero emptySpace baseBoid
     (by norm_num [combinedVelocity, stepNeighbors, emptySpace, baseBoid,
       Boid.cohere, Boid.separate, Boid.match_heading])⟩

/-- Claim C5: when the pre-normalisation combined velocity is nonzero, the
motion update agrees with the spec formula: the combined velocity is the old
velocity plus the weighted steering delta of the spec, the stored velocity
is its normalisation and has Euclidean norm one, and the position handed to
the space is the old position plus the normalised velocity times speed. -/
theorem step_motion_matches_spec (sp : Space) (b : Boid)
    (h : combinedVelocity sp b ≠ (0, 0)) :
    (combinedVelocity sp b
        = b.velocity + deltaSpec sp b (stepNeighbors sp b))
    ∧ (stepVelocity sp b = normalizedVelocity (combinedVelocity sp b))
    ∧ (rnormR (stepVelocity sp b) = 1)
    ∧ (stepNewPos sp b
        = ((b.pos.1 : ℝ) + (stepVelocity sp b).1 * (b.speed : ℝ),
           (b.pos.2 : ℝ) + (stepVelocity sp b).2 * (b.speed : ℝ))) := by
  refine ⟨?_, rfl, rnormR_normalizedVelocity h, rfl⟩
  unfold combinedVelocity deltaSpec
  rw [cohere_eq_spec, separate_eq_spec, match_heading_eq_spec]

/-- Witness for claim C5: a concrete agent with one neighbor at distance 5,
Euclidean heading and nonzero combined velocity. -/
theorem step_motion_matches_spec_witness :
    (combinedVelocity spC5 baseBoid ≠ (0, 0))
    ∧ ((combinedVelocity spC5 baseBoid
          = baseBoid.velocity + deltaSpec spC5 baseBoid (stepNeighbors spC5 baseBoid))
      ∧ (stepVelocity spC5 baseBoid
          = normalizedVelocity (combinedVelocity spC5 baseBoid))
      ∧ (rnormR (stepVelocity spC5 baseBoid) = 1)
      ∧ (stepNewPos spC5 baseBoid
          = ((baseBoid.pos.1 : ℝ)
               + (stepVelocity spC5 baseBoid).1 * (baseBoid.speed : ℝ),
             (baseBoid.pos.2 : ℝ)
               + (stepVelocity spC5 baseBoid).2 * (baseBoid.speed : ℝ)))) :=
  ⟨by norm_num [combinedVelocity, stepNeighbors, spC5, nbC5, baseBoid,
      Boid.cohere, Boid.separate, Boid.match_heading],
   step_motion_matches_spec spC5 baseBoid
     (by norm_num [combinedVelocity, stepNeighbors, spC5, nbC5, baseBoid,
       Boid.cohere, Boid.separate, Boid.match_heading])⟩

end BoidsModel
